import Mathlib

/-!
Verification of the segment-scheduling and time-accounting engine of a
Pomodoro-style productivity timer (React/TypeScript source, `src/App.tsx`
second revision and the `Timer` component).

The embedding follows the source closely:

* machine numbers are modelled as `Nat` (all the quantities involved are
  non-negative integers of seconds or milliseconds; `Math.max(0, a - b)`
  on integers coincides with truncated `Nat` subtraction `a - b`);
* React `useState` cells become fields of an explicit `AppState` record;
* each handler (`processDelta`, `handleTimerEnd`, `writeSessionRecord`,
  `writeDiarySnapshot`, the recovery effect, the `Timer` tick paths)
  becomes a pure state-transition function;
* the `pendingAutoStart` effect (which sets `isTimerRunning` to `true`
  right after `handleTimerEnd` picks the next phase) is composed into the
  continue branch of `handleTimerEnd`, since the two always run back to
  back in the source;
* `localStorage` reads/writes are dropped: the persisted values appear as
  explicit inputs/outputs of the functions that use them.
-/

namespace Pomodoro

/-- `TimerType` from `App.tsx`: `'pomodoro' | 'shortBreak' | 'longBreak'`. -/
inductive TimerType where
  | pomodoro
  | shortBreak
  | longBreak
deriving DecidableEq, Repr

/-- `runMode` state: `'workday' | 'cycles'`. -/
inductive RunMode where
  | workday
  | cycles
deriving DecidableEq, Repr

/-- `scheduleType` state: `'standard' | 'shortOnly' | 'longOnly'`. -/
inductive ScheduleType where
  | standard
  | shortOnly
  | longOnly
deriving DecidableEq, Repr

/-- The configuration snapshot: the duration/policy `useState` cells of
`App.tsx` that the engine reads but never writes during a run. -/
structure Config where
  pomodoroDuration : Nat
  shortBreakDuration : Nat
  longBreakDuration : Nat
  workdayDuration : Nat
  longEvery : Nat
  runMode : RunMode
  targetCycles : Nat
  scheduleType : ScheduleType
deriving DecidableEq, Repr

/-- The mutable run state: the remaining `useState` cells of `App.tsx`
that the scheduling/accounting engine owns. -/
structure AppState where
  isTimerRunning : Bool
  currentTimerType : TimerType
  elapsedWorkdayTime : Nat
  cumulativeActiveSec : Nat
  cumulativeBreakSec : Nat
  cumulativeShortBreakSec : Nat
  cumulativeLongBreakSec : Nat
  pomodorosCompleted : Nat
  cumulativePomodoros : Nat
deriving DecidableEq, Repr

/-- The state produced by `startWorkday` (and, up to the running flag,
by the reset paths): a fresh run with all accumulators zeroed. -/
def initialRunState : AppState :=
  { isTimerRunning := true
    currentTimerType := TimerType.pomodoro
    elapsedWorkdayTime := 0
    cumulativeActiveSec := 0
    cumulativeBreakSec := 0
    cumulativeShortBreakSec := 0
    cumulativeLongBreakSec := 0
    pomodorosCompleted := 0
    cumulativePomodoros := 0 }

/-- The zeroed idle state written by `handleReset` and by the
finalization branch of `handleTimerEnd` (the `setTimeout` body). -/
def resetState : AppState :=
  { initialRunState with isTimerRunning := false }

/-- `processDelta` (App.tsx, second revision, lines 740-773): the
steady-state accounting step.  The caller computes
`deltaSec = floor((now - lastTick)/1000)`; we take `deltaSec` as input.
If the timer is not running or `deltaSec <= 0` the call is a no-op.
Otherwise `elapsedWorkdayTime` is increased by the full `deltaSec`
(the source returns `next` unclamped; in Workday mode it additionally
stops the timer when `next >= workdayDuration`), and `deltaSec` is added
to the bucket matching the current phase. -/
def processDelta (cfg : Config) (s : AppState) (deltaSec : Nat) : AppState :=
  if s.isTimerRunning = false ∨ deltaSec = 0 then s
  else
    let next := s.elapsedWorkdayTime + deltaSec
    let running' :=
      if cfg.runMode = RunMode.workday ∧ cfg.workdayDuration ≤ next then false
      else s.isTimerRunning
    let s1 := { s with elapsedWorkdayTime := next, isTimerRunning := running' }
    match s.currentTimerType with
    | TimerType.pomodoro =>
        { s1 with cumulativeActiveSec := s1.cumulativeActiveSec + deltaSec }
    | TimerType.shortBreak =>
        { s1 with cumulativeBreakSec := s1.cumulativeBreakSec + deltaSec
                  cumulativeShortBreakSec := s1.cumulativeShortBreakSec + deltaSec }
    | TimerType.longBreak =>
        { s1 with cumulativeBreakSec := s1.cumulativeBreakSec + deltaSec
                  cumulativeLongBreakSec := s1.cumulativeLongBreakSec + deltaSec }

/-- The break-type decision embedded in `handleTimerEnd`
(App.tsx lines 1185-1199), with `n` the 1-indexed ordinal
(`nextCompleted`) of the Work interval just completed. -/
def nextBreakType (cfg : Config) (n : Nat) : TimerType :=
  match cfg.scheduleType with
  | ScheduleType.shortOnly => TimerType.shortBreak
  | ScheduleType.longOnly => TimerType.longBreak
  | ScheduleType.standard =>
      if n % cfg.longEvery = 0 then TimerType.longBreak else TimerType.shortBreak

/-- The per-`n` loop body of the Cycles reconciliation in
`writeSessionRecord` (App.tsx lines 947-951): running over
`n = 1..breaksCount`, count a long break when
`longEvery > 0 && n % longEvery === 0`, otherwise a short break.
Returns `(shortCount, longCount)`. -/
def standardCounts (longEvery : Nat) : Nat → Nat × Nat
  | 0 => (0, 0)
  | m + 1 =>
      let acc := standardCounts longEvery m
      if 0 < longEvery ∧ (m + 1) % longEvery = 0 then (acc.1, acc.2 + 1)
      else (acc.1 + 1, acc.2)

/-- The short/long partition of `breaksCount` ordinals used by
`writeSessionRecord` (App.tsx lines 943-951), by `scheduleType`. -/
def breakCounts (cfg : Config) (breaksCount : Nat) : Nat × Nat :=
  match cfg.scheduleType with
  | ScheduleType.shortOnly => (breaksCount, 0)
  | ScheduleType.longOnly => (0, breaksCount)
  | ScheduleType.standard => standardCounts cfg.longEvery breaksCount

/-- The durable session record (`SessionRecord` type in App.tsx), with
its engine-relevant fields (identity, date key and profile string are
environment inputs irrelevant to the claims).  The source field `break`
is called `brk` here because `break` is a Lean keyword. -/
structure SessionRecord where
  active : Nat
  brk : Nat
  short : Nat
  long : Nat
  pomodoros : Nat
  mode : RunMode
deriving DecidableEq, Repr

/-- The `short` field formula for Cycles records (App.tsx line 960):
`Math.max(0, Math.min(totalBreak, Math.floor(totalBreak / Math.max(1, shortBreakDuration)) * shortBreakDuration))`.
The outer `Math.max(0, -)` is the identity on `Nat`. -/
def cyclesShortField (shortBreakDuration totalBreak : Nat) : Nat :=
  max 0 (min totalBreak (totalBreak / max 1 shortBreakDuration * shortBreakDuration))

/-- `writeSessionRecord` (App.tsx, second revision, lines 924-993) as a
pure function from the captured state to the record it appends; `none`
when the empty-session guard (`totalActive + totalBreak <= 0`) rejects
the finalization.  `includeLastPomodoro` is the option passed by the
finalization call in `handleTimerEnd`. -/
def writeSessionRecord (cfg : Config) (s : AppState)
    (includeLastPomodoro : Bool) : Option SessionRecord :=
  let totalActive0 := s.cumulativeActiveSec
  let totalBreak0 := s.cumulativeBreakSec
  if totalActive0 + totalBreak0 = 0 then none
  else
    let effectivePomodoros :=
      s.pomodorosCompleted + (if includeLastPomodoro then 1 else 0)
    let snap := cfg.runMode = RunMode.cycles ∧ 0 < effectivePomodoros
    let totalActive :=
      if snap then effectivePomodoros * cfg.pomodoroDuration else totalActive0
    let totalBreak :=
      if snap then
        -- breaksCount = Math.max(0, effectivePomodoros - 1): Nat subtraction
        let breaksCount := effectivePomodoros - 1
        let counts := breakCounts cfg breaksCount
        counts.1 * cfg.shortBreakDuration + counts.2 * cfg.longBreakDuration
      else totalBreak0
    some
      { active := totalActive
        brk := totalBreak
        short :=
          if cfg.runMode = RunMode.cycles then
            cyclesShortField cfg.shortBreakDuration totalBreak
          else s.cumulativeShortBreakSec
        long :=
          if cfg.runMode = RunMode.cycles then
            totalBreak - cyclesShortField cfg.shortBreakDuration totalBreak
          else s.cumulativeLongBreakSec
        pomodoros := effectivePomodoros
        mode := cfg.runMode }

/-- Appending the produced record to the session log
(App.tsx lines 967-970: parse, push, store). -/
def appendSessionRecord (cfg : Config) (s : AppState)
    (includeLastPomodoro : Bool) (log : List SessionRecord) : List SessionRecord :=
  log ++ (writeSessionRecord cfg s includeLastPomodoro).toList

/-- The outcome of a phase expiry: the successor state, whether the run
finished, and the session record written on finish. -/
structure EndOutcome where
  state : AppState
  finished : Bool
  record : Option SessionRecord
deriving DecidableEq, Repr

/-- `handleTimerEnd` (App.tsx, second revision, lines 1144-1210), with
the `pendingAutoStart` effect folded in (on a continue transition the
next segment is auto-started, so `isTimerRunning` ends up `true`).
Evaluates the stop condition first; on stop it finalizes
(`writeSessionRecord` with `includeLastPomodoro` exactly when the phase
that expired was Work) and resets to the idle state; otherwise a Work
expiry increments `pomodorosCompleted` and moves to the policy-chosen
break, and a break expiry moves back to Work. -/
def handleTimerEnd (cfg : Config) (s : AppState) : EndOutcome :=
  let workdayDone :=
    cfg.runMode = RunMode.workday ∧ cfg.workdayDuration ≤ s.elapsedWorkdayTime
  let cyclesDone :=
    cfg.runMode = RunMode.cycles ∧ s.currentTimerType = TimerType.pomodoro ∧
      cfg.targetCycles ≤ s.pomodorosCompleted + 1
  if workdayDone ∨ cyclesDone then
    { state := resetState
      finished := true
      record := writeSessionRecord cfg s (s.currentTimerType = TimerType.pomodoro) }
  else
    match s.currentTimerType with
    | TimerType.pomodoro =>
        let nextCompleted := s.pomodorosCompleted + 1
        { state :=
            { s with pomodorosCompleted := nextCompleted
                     cumulativePomodoros := s.cumulativePomodoros + 1
                     currentTimerType := nextBreakType cfg nextCompleted
                     isTimerRunning := true }
          finished := false
          record := none }
    | _ =>
        { state := { s with currentTimerType := TimerType.pomodoro, isTimerRunning := true }
          finished := false
          record := none }

/-- Nominal duration of a phase, from `getCurrentDuration` (App.tsx
lines 1008-1019). -/
def phaseDuration (cfg : Config) : TimerType → Nat
  | TimerType.pomodoro => cfg.pomodoroDuration
  | TimerType.shortBreak => cfg.shortBreakDuration
  | TimerType.longBreak => cfg.longBreakDuration

/-- A full run: repeatedly let the current phase elapse (accounting its
nominal duration through `processDelta`, the sum of its per-tick deltas)
and fire `handleTimerEnd`, until the run finishes or `fuel` runs out.
Returns the list of phase segments in order together with the final
expiry outcome (`none` when fuel was exhausted before finishing). -/
def runToCompletion (cfg : Config) : Nat → AppState → List TimerType × Option EndOutcome
  | 0, _ => ([], none)
  | fuel + 1, s =>
      let sEnd := processDelta cfg s (phaseDuration cfg s.currentTimerType)
      let r := handleTimerEnd cfg sEnd
      if r.finished then ([s.currentTimerType], some r)
      else
        let rest := runToCompletion cfg fuel r.state
        (s.currentTimerType :: rest.1, rest.2)

/-- The recovery bulk catch-up (App.tsx, second revision, lines
1377-1387): attribute `elapsedSinceStart = max(0, floor((now - startedAt)/1000))`
seconds to the checkpoint phase's bucket and to `elapsedWorkdayTime`
(guarded by `elapsedSinceStart > 0`). -/
def recoverCatchUp (s : AppState) (t : TimerType) (elapsedSinceStart : Nat) : AppState :=
  if elapsedSinceStart = 0 then s
  else
    let s1 :=
      match t with
      | TimerType.pomodoro =>
          { s with cumulativeActiveSec := s.cumulativeActiveSec + elapsedSinceStart }
      | TimerType.shortBreak =>
          { s with cumulativeBreakSec := s.cumulativeBreakSec + elapsedSinceStart
                   cumulativeShortBreakSec := s.cumulativeShortBreakSec + elapsedSinceStart }
      | TimerType.longBreak =>
          { s with cumulativeBreakSec := s.cumulativeBreakSec + elapsedSinceStart
                   cumulativeLongBreakSec := s.cumulativeLongBreakSec + elapsedSinceStart }
    { s1 with elapsedWorkdayTime := s1.elapsedWorkdayTime + elapsedSinceStart }

/-- The stop condition evaluated first by `handleTimerEnd`. -/
def stopCondition (cfg : Config) (s : AppState) : Prop :=
  (cfg.runMode = RunMode.workday ∧ cfg.workdayDuration ≤ s.elapsedWorkdayTime) ∨
    (cfg.runMode = RunMode.cycles ∧ s.currentTimerType = TimerType.pomodoro ∧
      cfg.targetCycles ≤ s.pomodorosCompleted + 1)

instance (cfg : Config) (s : AppState) : Decidable (stopCondition cfg s) := by
  unfold stopCondition; infer_instance

/-- The `useState` defaults of App.tsx's first render (lines 697-720):
25-minute work, 5/15-minute breaks, 8-hour workday, `longEvery = 4`,
`runMode = 'workday'`, `targetCycles = 8`, Standard policy.  These are
the configuration values the first-render `handleTimerEnd` closure
captured; the settings-loading effects update the state afterwards but
never this closure. -/
def firstRenderConfig : Config :=
  ⟨25 * 60, 5 * 60, 15 * 60, 8 * 3600, 4, RunMode.workday, 8, ScheduleType.standard⟩

/-- The writes of a stale `handleTimerEnd` closure: the branch decision
and the plain (non-functional) `setState` values are computed from the
render snapshot the closure captured (`cfgStale`, `stale`), while the
writes land on — and the one functional updater
`setCumulativePomodoros((c) => c + 1)` reads — the live state
`current`.  On the finalization branch every counter is reset with
absolute zero writes (the session record is computed from the stale
accumulators, so for the first-render snapshot it is rejected by the
empty-session guard); on a continue branch the auto-start effect leaves
the timer running. -/
def applyStaleTimerEnd (cfgStale : Config) (stale current : AppState) : AppState :=
  if stopCondition cfgStale stale then resetState
  else
    match stale.currentTimerType with
    | TimerType.pomodoro =>
        { current with
            pomodorosCompleted := stale.pomodorosCompleted + 1
            cumulativePomodoros := current.cumulativePomodoros + 1
            currentTimerType := nextBreakType cfgStale (stale.pomodorosCompleted + 1)
            isTimerRunning := true }
    | _ =>
        { current with currentTimerType := TimerType.pomodoro, isTimerRunning := true }

/-- The recovery mount effect (App.tsx, second revision, lines
1362-1403) for a checkpoint marked running: bulk catch-up from
`startedAt` to `now`, then either resume the phase or — when
`now >= plannedEndAt` — fire the expiry replay.  The effect has an
empty dependency array, so the `handleTimerEnd` it calls inside
`setTimeout(.., 0)` is the first-render closure: its reads see the
initial render's state (Work phase, all counters zero — the same values
as `resetState`) and the default `firstRenderConfig`, not the
checkpoint's phase or the loaded settings; only its writes reach the
caught-up state.  The boolean records whether the replay fired. -/
def recoverOnMount (cfg : Config) (s : AppState) (t : TimerType)
    (startedAt plannedEndAt now : Nat) : AppState × Bool :=
  let elapsedSinceStart := (now - startedAt) / 1000
  let s1 := recoverCatchUp s t elapsedSinceStart
  if plannedEndAt ≤ now then
    (applyStaleTimerEnd firstRenderConfig resetState
      { s1 with currentTimerType := t, isTimerRunning := true }, true)
  else
    ({ s1 with currentTimerType := t, isTimerRunning := true }, false)

/-- The engine-driving events of `App.tsx`: explicit start, a
steady-state accounting tick, a phase expiry, pause, resume, explicit
reset, the recovery bulk catch-up, and the midnight rollover (which
zeroes the run-scoped active/break/elapsed counters, lines 1425-1431). -/
inductive Event where
  | start
  | tick (deltaSec : Nat)
  | phaseEnd
  | pause
  | resume
  | reset
  | recover (t : TimerType) (elapsedSinceStart : Nat)
  | midnight
deriving DecidableEq, Repr

/-- One engine step for each event, as implemented by the corresponding
handler/effect in `App.tsx` (second revision). -/
def step (cfg : Config) (s : AppState) : Event → AppState
  | Event.start => initialRunState
  | Event.tick d => processDelta cfg s d
  | Event.phaseEnd => (handleTimerEnd cfg s).state
  | Event.pause => { s with isTimerRunning := false }
  | Event.resume => { s with isTimerRunning := true }
  | Event.reset => resetState
  | Event.recover t d =>
      { recoverCatchUp s t d with currentTimerType := t, isTimerRunning := true }
  | Event.midnight =>
      { s with cumulativeActiveSec := 0, cumulativeBreakSec := 0, elapsedWorkdayTime := 0 }

/-- Running a sequence of engine events from a state. -/
def runEvents (cfg : Config) (s : AppState) (evs : List Event) : AppState :=
  evs.foldl (step cfg) s

/-- The accounting-conservation invariant (spec P3):
`cumulativeActiveSec + cumulativeBreakSec = elapsedTotalSec`. -/
def conserving (s : AppState) : Prop :=
  s.cumulativeActiveSec + s.cumulativeBreakSec = s.elapsedWorkdayTime

/-- Modelled from the spec (for the refinement comparison in C5): the
number of long breaks among the ordinals `1..m` according to the
scheduler's break-type decision rule of §4.3 (`nextBreakType`). -/
def specLongCount (cfg : Config) : Nat → Nat
  | 0 => 0
  | m + 1 =>
      specLongCount cfg m +
        (if nextBreakType cfg (m + 1) = TimerType.longBreak then 1 else 0)

/-- Modelled from the spec (for the refinement comparison in C5): the
number of short breaks among the ordinals `1..m` according to the
scheduler's break-type decision rule of §4.3 (`nextBreakType`). -/
def specShortCount (cfg : Config) : Nat → Nat
  | 0 => 0
  | m + 1 =>
      specShortCount cfg m +
        (if nextBreakType cfg (m + 1) = TimerType.shortBreak then 1 else 0)

/-- Per-profile totals inside a diary entry (`byProfile` values). -/
structure ProfileTotals where
  active : Nat
  brk : Nat
  poms : Nat
deriving DecidableEq, Repr

/-- A day's diary entry (`store[key]` in `writeDiarySnapshot`), with the
baseline fields used for delta computation.  `byProfile` is the
string-keyed record, modelled as an association list. -/
structure DiaryEntry where
  active : Nat
  brk : Nat
  short : Nat
  long : Nat
  poms : Nat
  elapsed : Nat
  ts : Nat
  byProfile : List (String × ProfileTotals)
  baseActive : Nat
  baseBreak : Nat
  baseShort : Nat
  baseLong : Nat
  basePoms : Nat
deriving DecidableEq, Repr

/-- Reading a key from the `byProfile` record. -/
def lookupProfile (k : String) : List (String × ProfileTotals) → Option ProfileTotals
  | [] => none
  | (k', v) :: rest => if k' = k then some v else lookupProfile k rest

/-- Writing a key into the `byProfile` record
(`{ ...prev.byProfile, [profileName]: pp }`): replace in place or append. -/
def setProfileEntry (k : String) (v : ProfileTotals) :
    List (String × ProfileTotals) → List (String × ProfileTotals)
  | [] => [(k, v)]
  | (k', v') :: rest =>
      if k' = k then (k, v) :: rest else (k', v') :: setProfileEntry k v rest

/-- `writeDiarySnapshot` (App.tsx, second revision, lines 840-877) as a
pure function on the current day's entry: deltas are the accumulators
minus the stored baselines (`Math.max(0, cum - base)` is truncated `Nat`
subtraction), added to the day totals and to the current profile's
breakdown; the baselines are then advanced to the current accumulators.
`now` is the `Date.now()` value stored in `ts`. -/
def writeDiarySnapshot (prev : DiaryEntry) (s : AppState) (profileName : String)
    (now : Nat) : DiaryEntry :=
  let dActive := s.cumulativeActiveSec - prev.baseActive
  let dBreak := s.cumulativeBreakSec - prev.baseBreak
  let dShort := s.cumulativeShortBreakSec - prev.baseShort
  let dLong := s.cumulativeLongBreakSec - prev.baseLong
  let dPoms := s.pomodorosCompleted - prev.basePoms
  let pp := (lookupProfile profileName prev.byProfile).getD ⟨0, 0, 0⟩
  let pp' : ProfileTotals := ⟨pp.active + dActive, pp.brk + dBreak, pp.poms + dPoms⟩
  { active := prev.active + dActive
    brk := prev.brk + dBreak
    short := prev.short + dShort
    long := prev.long + dLong
    poms := prev.poms + dPoms
    elapsed := max prev.elapsed s.elapsedWorkdayTime
    ts := now
    byProfile := setProfileEntry profileName pp' prev.byProfile
    baseActive := s.cumulativeActiveSec
    baseBreak := s.cumulativeBreakSec
    baseShort := s.cumulativeShortBreakSec
    baseLong := s.cumulativeLongBreakSec
    basePoms := s.pomodorosCompleted }

/-- The `Timer` component's countdown state (`src/unnamed/part_002`,
second revision): the refs `remainingMsRef`, `targetTsRef`, `endedRef`,
plus flags recording whether an animation-frame callback and the
fallback timeout are currently scheduled, and the `isRunning` prop. -/
structure TimerState where
  remainingMs : Nat
  targetTs : Option Nat
  ended : Bool
  rafScheduled : Bool
  timeoutScheduled : Bool
  running : Bool
deriving DecidableEq, Repr

/-- `stopLoop` (part_002 lines 122-132): cancel the animation frame,
clear the target timestamp and the fallback timeout. -/
def stopLoop (s : TimerState) : TimerState :=
  { s with rafScheduled := false, targetTs := none, timeoutScheduled := false }

/-- The shared deadline math of every expiry-detection path: establish
the target when null, then `msLeft = max(0, target - now)` (truncated
`Nat` subtraction). Returns `(target, msLeft)`. -/
def computeMsLeft (s : TimerState) (now : Nat) : Nat × Nat :=
  match s.targetTs with
  | none => (now + s.remainingMs, s.remainingMs)
  | some t => (t, t - now)

/-- The `tick` animation-frame callback (part_002 lines 134-150): runs
only while an animation frame is scheduled; on zero remaining with the
`endedRef` guard clear, it marks ended, stops the loop and fires
`onTimerEnd`; otherwise it reschedules itself.  The boolean reports
whether `onTimerEnd` fired. -/
def rafTick (s : TimerState) (now : Nat) : TimerState × Bool :=
  if s.rafScheduled = false then (s, false)
  else
    let c := computeMsLeft s now
    let s1 := { s with targetTs := some c.1, remainingMs := c.2 }
    if c.2 = 0 ∧ s.ended = false then ({ stopLoop s1 with ended := true }, true)
    else (s1, false)

/-- The fallback timeout body (part_002 lines 162-177): one-shot; same
deadline math and the same `endedRef` guard. -/
def fallbackFire (s : TimerState) (now : Nat) : TimerState × Bool :=
  if s.timeoutScheduled = false then (s, false)
  else
    let s0 := { s with timeoutScheduled := false }
    let c := computeMsLeft s now
    let s1 := { s0 with targetTs := some c.1, remainingMs := c.2 }
    if c.2 = 0 ∧ s.ended = false then ({ stopLoop s1 with ended := true }, true)
    else (s1, false)

/-- The visibility/focus re-sync handler (part_002 lines 194-211):
no-op unless running; same deadline math and `endedRef` guard. -/
def visibilitySync (s : TimerState) (now : Nat) : TimerState × Bool :=
  if s.running = false then (s, false)
  else
    let c := computeMsLeft s now
    let s1 := { s with targetTs := some c.1, remainingMs := c.2 }
    if c.2 = 0 ∧ s.ended = false then ({ stopLoop s1 with ended := true }, true)
    else (s1, false)

/-- The `isRunning` transition to `false` (part_002 lines 178-181):
pause fully disarms the loop. -/
def pauseTimer (s : TimerState) : TimerState :=
  stopLoop { s with running := false }

/-- The `isRunning` transition to `true` (part_002 lines 153-177):
arms the animation-frame loop and the fallback timeout. -/
def startTimerLoop (s : TimerState) : TimerState :=
  { s with running := true, rafScheduled := true, timeoutScheduled := true }

/-- The duration/`sessionId` reset effect (part_002 lines 115-120):
reload `remainingMs`, clear the fired guard and the target. -/
def resetSegment (s : TimerState) (durationSec : Nat) : TimerState :=
  { s with remainingMs := durationSec * 1000, ended := false, targetTs := none }

/-- The events that can reach the `Timer` component. -/
inductive TEvent where
  | raf (now : Nat)
  | fallback (now : Nat)
  | visible (now : Nat)
  | pauseEv
  | runEv
  | resetEv (durationSec : Nat)
deriving DecidableEq, Repr

/-- One `Timer` step; the boolean reports whether `onTimerEnd` fired. -/
def timerStep (s : TimerState) : TEvent → TimerState × Bool
  | TEvent.raf now => rafTick s now
  | TEvent.fallback now => fallbackFire s now
  | TEvent.visible now => visibilitySync s now
  | TEvent.pauseEv => (pauseTimer s, false)
  | TEvent.runEv => (startTimerLoop s, false)
  | TEvent.resetEv d => (resetSegment s d, false)

/-- Number of `onTimerEnd` fires along a sequence of events. -/
def fireCount (s : TimerState) : List TEvent → Nat
  | [] => 0
  | e :: es =>
      let r := timerStep s e
      (if r.2 then 1 else 0) + fireCount r.1 es

/-- Whether a `resetEv` occurs in the list. -/
def hasResetEv : List TEvent → Bool
  | [] => false
  | TEvent.resetEv _ :: _ => true
  | _ :: es => hasResetEv es

/-- Whether a `runEv` occurs in the list. -/
def hasRunEv : List TEvent → Bool
  | [] => false
  | TEvent.runEv :: _ => true
  | _ :: es => hasRunEv es

/- ------------------------------------------------------------------ -/
/- Helper lemmas -/
/- ------------------------------------------------------------------ -/

theorem handleTimerEnd_unfold (cfg : Config) (s : AppState) :
    handleTimerEnd cfg s =
      if stopCondition cfg s then
        { state := resetState
          finished := true
          record := writeSessionRecord cfg s (s.currentTimerType = TimerType.pomodoro) }
      else
        match s.currentTimerType with
        | TimerType.pomodoro =>
            { state :=
                { s with pomodorosCompleted := s.pomodorosCompleted + 1
                         cumulativePomodoros := s.cumulativePomodoros + 1
                         currentTimerType := nextBreakType cfg (s.pomodorosCompleted + 1)
                         isTimerRunning := true }
              finished := false
              record := none }
        | _ =>
            { state := { s with currentTimerType := TimerType.pomodoro, isTimerRunning := true }
              finished := false
              record := none } := by
  unfold handleTimerEnd stopCondition
  rfl

theorem handleTimerEnd_work_continue (cfg : Config) (s : AppState)
    (hw : s.currentTimerType = TimerType.pomodoro)
    (hstop : ¬ stopCondition cfg s) :
    handleTimerEnd cfg s =
      { state :=
          { s with pomodorosCompleted := s.pomodorosCompleted + 1
                   cumulativePomodoros := s.cumulativePomodoros + 1
                   currentTimerType := nextBreakType cfg (s.pomodorosCompleted + 1)
                   isTimerRunning := true }
        finished := false
        record := none } := by
  rw [handleTimerEnd_unfold, if_neg hstop, hw]

theorem handleTimerEnd_break_continue (cfg : Config) (s : AppState)
    (hb : s.currentTimerType ≠ TimerType.pomodoro)
    (hstop : ¬ stopCondition cfg s) :
    handleTimerEnd cfg s =
      { state := { s with currentTimerType := TimerType.pomodoro, isTimerRunning := true }
        finished := false
        record := none } := by
  rw [handleTimerEnd_unfold, if_neg hstop]
  cases hc : s.currentTimerType
  · exact absurd hc hb
  · rfl
  · rfl

theorem handleTimerEnd_stop (cfg : Config) (s : AppState)
    (hstop : stopCondition cfg s) :
    handleTimerEnd cfg s =
      { state := resetState
        finished := true
        record := writeSessionRecord cfg s (s.currentTimerType = TimerType.pomodoro) } := by
  rw [handleTimerEnd_unfold, if_pos hstop]

theorem nextBreakType_ne_pomodoro (cfg : Config) (n : Nat) :
    nextBreakType cfg n ≠ TimerType.pomodoro := by
  unfold nextBreakType
  rcases cfg.scheduleType <;> simp only []
  · split <;> simp
  · simp
  · simp

theorem processDelta_currentTimerType (cfg : Config) (s : AppState) (d : Nat) :
    (processDelta cfg s d).currentTimerType = s.currentTimerType := by
  unfold processDelta
  split
  · rfl
  · cases s.currentTimerType <;> rfl

theorem processDelta_pomodorosCompleted (cfg : Config) (s : AppState) (d : Nat) :
    (processDelta cfg s d).pomodorosCompleted = s.pomodorosCompleted := by
  unfold processDelta
  split
  · rfl
  · cases s.currentTimerType <;> rfl

theorem processDelta_running_cycles (cfg : Config) (s : AppState) (d : Nat)
    (hm : cfg.runMode = RunMode.cycles) (hr : s.isTimerRunning = true) :
    (processDelta cfg s d).isTimerRunning = true := by
  unfold processDelta
  split
  · exact hr
  · have hrm : ¬ (cfg.runMode = RunMode.workday ∧
        cfg.workdayDuration ≤ s.elapsedWorkdayTime + d) := by
      rintro ⟨hw, -⟩
      rw [hm] at hw
      exact RunMode.noConfusion hw
    cases s.currentTimerType <;> simp [hrm, hr]

theorem processDelta_active (cfg : Config) (s : AppState) (d : Nat)
    (hr : s.isTimerRunning = true) :
    (processDelta cfg s d).cumulativeActiveSec =
      s.cumulativeActiveSec +
        (if s.currentTimerType = TimerType.pomodoro then d else 0) := by
  unfold processDelta
  split
  · rename_i hg
    rcases hg with hg | hg
    · rw [hr] at hg; exact absurd hg (by simp)
    · subst hg; cases s.currentTimerType <;> simp
  · cases hc : s.currentTimerType <;> simp [hc]

theorem processDelta_break (cfg : Config) (s : AppState) (d : Nat)
    (hr : s.isTimerRunning = true) :
    (processDelta cfg s d).cumulativeBreakSec =
      s.cumulativeBreakSec +
        (if s.currentTimerType = TimerType.pomodoro then 0 else d) := by
  unfold processDelta
  split
  · rename_i hg
    rcases hg with hg | hg
    · rw [hr] at hg; exact absurd hg (by simp)
    · subst hg; cases s.currentTimerType <;> simp
  · cases hc : s.currentTimerType <;> simp [hc]

theorem processDelta_elapsed (cfg : Config) (s : AppState) (d : Nat)
    (hr : s.isTimerRunning = true) :
    (processDelta cfg s d).elapsedWorkdayTime = s.elapsedWorkdayTime + d := by
  unfold processDelta
  split
  · rename_i hg
    rcases hg with hg | hg
    · rw [hr] at hg; exact absurd hg (by simp)
    · subst hg; simp
  · cases s.currentTimerType <;> rfl

theorem recoverCatchUp_elapsed (s : AppState) (t : TimerType) (d : Nat) :
    (recoverCatchUp s t d).elapsedWorkdayTime = s.elapsedWorkdayTime + d := by
  unfold recoverCatchUp
  split
  · rename_i h0; simp [h0]
  · cases t <;> rfl

theorem recoverCatchUp_active (s : AppState) (t : TimerType) (d : Nat) :
    (recoverCatchUp s t d).cumulativeActiveSec =
      s.cumulativeActiveSec + (if t = TimerType.pomodoro then d else 0) := by
  unfold recoverCatchUp
  split
  · rename_i h0; subst h0; cases t <;> simp
  · cases t <;> simp

theorem recoverCatchUp_break (s : AppState) (t : TimerType) (d : Nat) :
    (recoverCatchUp s t d).cumulativeBreakSec =
      s.cumulativeBreakSec + (if t = TimerType.pomodoro then 0 else d) := by
  unfold recoverCatchUp
  split
  · rename_i h0; subst h0; cases t <;> simp
  · cases t <;> simp

theorem cyclesShortField_le (sd tb : Nat) : cyclesShortField sd tb ≤ tb := by
  unfold cyclesShortField
  rw [Nat.zero_max]
  exact min_le_left _ _

/- ------------------------------------------------------------------ -/
/- Claims -/
/- ------------------------------------------------------------------ -/

/-- C1: for every Work interval whose expiry does not satisfy the stop
condition, with `n = pomodorosCompleted + 1` the 1-indexed ordinal of
the Work interval just completed, the next phase chosen by
`handleTimerEnd` is: always ShortBreak under `shortOnly`; always
LongBreak under `longOnly`; and under `standard`, LongBreak iff
`n % longEvery == 0`, otherwise ShortBreak. -/
theorem break_type_determinism (cfg : Config) (s : AppState)
    (hw : s.currentTimerType = TimerType.pomodoro)
    (hstop : ¬ stopCondition cfg s) :
    (cfg.scheduleType = ScheduleType.shortOnly →
      (handleTimerEnd cfg s).state.currentTimerType = TimerType.shortBreak) ∧
    (cfg.scheduleType = ScheduleType.longOnly →
      (handleTimerEnd cfg s).state.currentTimerType = TimerType.longBreak) ∧
    (cfg.scheduleType = ScheduleType.standard →
      ((handleTimerEnd cfg s).state.currentTimerType = TimerType.longBreak ↔
        (s.pomodorosCompleted + 1) % cfg.longEvery = 0) ∧
      ((handleTimerEnd cfg s).state.currentTimerType = TimerType.shortBreak ↔
        ¬ (s.pomodorosCompleted + 1) % cfg.longEvery = 0)) := by
  have hn := handleTimerEnd_work_continue cfg s hw hstop
  refine ⟨fun h => ?_, fun h => ?_, fun h => ?_⟩
  · simp [hn, nextBreakType, h]
  · simp [hn, nextBreakType, h]
  · by_cases hc : (s.pomodorosCompleted + 1) % cfg.longEvery = 0 <;>
      simp [hn, nextBreakType, h, hc]

/-- Witness for C1: `longEvery = 4`, Standard policy, fourth Work
interval just completed in a Cycles run far from its target: the next
phase is a long break. -/
theorem break_type_determinism_witness :
    (handleTimerEnd ⟨1500, 300, 900, 28800, 4, RunMode.cycles, 8, ScheduleType.standard⟩
        { initialRunState with pomodorosCompleted := 3 }).state.currentTimerType =
      TimerType.longBreak := by
  have h := break_type_determinism
    ⟨1500, 300, 900, 28800, 4, RunMode.cycles, 8, ScheduleType.standard⟩
    { initialRunState with pomodorosCompleted := 3 } rfl (by decide)
  exact (h.2.2 rfl).1.mpr (by decide)

/-- C3 does not hold of the code: the claim says `elapsedTotalSec` is clamped
at the workday stop condition, but `processDelta` stores the full
unclamped sum (the source comment says "with clamping" yet the updater
returns `next` unclamped, merely stopping the timer), and the recovery
bulk catch-up adds the whole gap with no clamp either.  At
`workdayDuration = 3600`, `elapsedWorkdayTime = 3590` and a 100-second
delta, both paths land on 3690, which exceeds 3600. -/
theorem workday_elapsed_not_clamped :
    (processDelta ⟨1500, 300, 900, 3600, 4, RunMode.workday, 8, ScheduleType.standard⟩
        { isTimerRunning := true, currentTimerType := TimerType.pomodoro,
          elapsedWorkdayTime := 3590, cumulativeActiveSec := 2990,
          cumulativeBreakSec := 600, cumulativeShortBreakSec := 600,
          cumulativeLongBreakSec := 0, pomodorosCompleted := 1,
          cumulativePomodoros := 1 } 100).elapsedWorkdayTime = 3690 ∧
    3600 < (processDelta ⟨1500, 300, 900, 3600, 4, RunMode.workday, 8, ScheduleType.standard⟩
        { isTimerRunning := true, currentTimerType := TimerType.pomodoro,
          elapsedWorkdayTime := 3590, cumulativeActiveSec := 2990,
          cumulativeBreakSec := 600, cumulativeShortBreakSec := 600,
          cumulativeLongBreakSec := 0, pomodorosCompleted := 1,
          cumulativePomodoros := 1 } 100).elapsedWorkdayTime ∧
    (processDelta ⟨1500, 300, 900, 3600, 4, RunMode.workday, 8, ScheduleType.standard⟩
        { isTimerRunning := true, currentTimerType := TimerType.pomodoro,
          elapsedWorkdayTime := 3590, cumulativeActiveSec := 2990,
          cumulativeBreakSec := 600, cumulativeShortBreakSec := 600,
          cumulativeLongBreakSec := 0, pomodorosCompleted := 1,
          cumulativePomodoros := 1 } 100).isTimerRunning = false ∧
    (recoverCatchUp
        { isTimerRunning := true, currentTimerType := TimerType.pomodoro,
          elapsedWorkdayTime := 3590, cumulativeActiveSec := 2990,
          cumulativeBreakSec := 600, cumulativeShortBreakSec := 600,
          cumulativeLongBreakSec := 0, pomodorosCompleted := 1,
          cumulativePomodoros := 1 } TimerType.pomodoro 100).elapsedWorkdayTime = 3690 := by
  decide

/-- C8: finalization with `cumulativeActiveSec + cumulativeBreakSec = 0`
is a no-op: `writeSessionRecord` produces no record and the session log
is unchanged. -/
theorem empty_session_rejected (cfg : Config) (s : AppState) (inc : Bool)
    (log : List SessionRecord)
    (h : s.cumulativeActiveSec + s.cumulativeBreakSec = 0) :
    writeSessionRecord cfg s inc = none ∧ appendSessionRecord cfg s inc log = log := by
  have h1 : writeSessionRecord cfg s inc = none := by
    unfold writeSessionRecord
    rw [if_pos h]
  refine ⟨h1, ?_⟩
  simp [appendSessionRecord, h1]

/-- Witness for C8: finalizing the freshly reset state appends nothing. -/
theorem empty_session_rejected_witness :
    writeSessionRecord ⟨1500, 300, 900, 28800, 4, RunMode.workday, 8, ScheduleType.standard⟩
        resetState false = none ∧
    appendSessionRecord ⟨1500, 300, 900, 28800, 4, RunMode.workday, 8, ScheduleType.standard⟩
        resetState false [] = [] :=
  empty_session_rejected
    ⟨1500, 300, 900, 28800, 4, RunMode.workday, 8, ScheduleType.standard⟩
    resetState false [] rfl

/-- C10: for every SessionRecord written in Cycles mode, the recorded
`short` and `long` fields sum exactly to the recorded `break` field
(`long` is computed as `break` minus the floor-division `short`). -/
theorem record_short_long_sum (cfg : Config) (s : AppState) (inc : Bool)
    (rec : SessionRecord) (hm : cfg.runMode = RunMode.cycles)
    (h : writeSessionRecord cfg s inc = some rec) :
    rec.short + rec.long = rec.brk := by
  simp only [writeSessionRecord] at h
  by_cases h0 : s.cumulativeActiveSec + s.cumulativeBreakSec = 0
  · rw [if_pos h0] at h
    exact absurd h (by simp)
  · rw [if_neg h0] at h
    injection h with h'
    subst h'
    simp only [hm, SessionRecord.brk, SessionRecord.short, SessionRecord.long]
    simp only [eq_self_iff_true, if_true]
    exact Nat.add_sub_cancel' (cyclesShortField_le _ _)

/-- Witness for C10 on the 5-cycle Standard configuration of the spec's
first scenario. -/
theorem record_short_long_sum_witness :
    (⟨7500, 1800, 1800, 0, 5, RunMode.cycles⟩ : SessionRecord).short +
      (⟨7500, 1800, 1800, 0, 5, RunMode.cycles⟩ : SessionRecord).long =
    (⟨7500, 1800, 1800, 0, 5, RunMode.cycles⟩ : SessionRecord).brk :=
  record_short_long_sum
    ⟨1500, 300, 900, 28800, 4, RunMode.cycles, 5, ScheduleType.standard⟩
    { initialRunState with
        cumulativeActiveSec := 7400, cumulativeBreakSec := 1795, pomodorosCompleted := 4 }
    true ⟨7500, 1800, 1800, 0, 5, RunMode.cycles⟩ rfl (by decide)

/-- Counterexample to C4: recovery invoked 100s after a 300s ShortBreak
checkpoint's deadline (a) attributes 400s — the whole gap, overrun
included — to the break accumulators, not the 300s the claim mandates,
and (b) does not replay the ShortBreak-expiry transition: the stale
first-render `handleTimerEnd` closure performs a Work-expiry step on
the default snapshot, so the run ends in `shortBreak` with
`pomodorosCompleted = 1` instead of transitioning to Work with the
interval count untouched. -/
theorem recovery_overrun_counterexample :
    ((recoverOnMount ⟨1500, 300, 900, 28800, 4, RunMode.workday, 8, ScheduleType.standard⟩
        resetState TimerType.shortBreak 0 300000 400000).1.cumulativeBreakSec = 400) ∧
    ¬ ((recoverOnMount ⟨1500, 300, 900, 28800, 4, RunMode.workday, 8, ScheduleType.standard⟩
        resetState TimerType.shortBreak 0 300000 400000).1.cumulativeBreakSec = 300) ∧
    ((recoverOnMount ⟨1500, 300, 900, 28800, 4, RunMode.workday, 8, ScheduleType.standard⟩
        resetState TimerType.shortBreak 0 300000 400000).1.currentTimerType =
      TimerType.shortBreak) ∧
    ¬ ((recoverOnMount ⟨1500, 300, 900, 28800, 4, RunMode.workday, 8, ScheduleType.standard⟩
        resetState TimerType.shortBreak 0 300000 400000).1.currentTimerType =
      TimerType.pomodoro) ∧
    ((recoverOnMount ⟨1500, 300, 900, 28800, 4, RunMode.workday, 8, ScheduleType.standard⟩
        resetState TimerType.shortBreak 0 300000 400000).1.pomodorosCompleted = 1) ∧
    ((recoverOnMount ⟨1500, 300, 900, 28800, 4, RunMode.workday, 8, ScheduleType.standard⟩
        resetState TimerType.shortBreak 0 300000 400000).2 = true) := by
  decide

/-- C4 (amended): when the process restarts with a running checkpoint
whose `plannedEndAt` is at or before `now`, the engine bulk-accounts the
entire gap `floor((now - startedAt)/1000)` — including the overrun past
the deadline — into the checkpoint phase's accumulators, and then fires
the expiry replay exactly once, but through the stale first-render
`handleTimerEnd` closure: regardless of the checkpoint's phase and the
loaded settings, the replay performs a Work-expiry continue step on the
default initial snapshot, leaving the caught-up accumulators in place
and setting `pomodorosCompleted := 1` and the phase to ShortBreak
(ordinal 1 under the default Standard policy with `longEvery = 4`). -/
theorem recovery_bulk_stale_replay (cfg : Config) (s : AppState) (t : TimerType)
    (startedAt plannedEndAt now : Nat) (h : plannedEndAt ≤ now) :
    (recoverOnMount cfg s t startedAt plannedEndAt now).2 = true ∧
    (recoverOnMount cfg s t startedAt plannedEndAt now).1 =
      { recoverCatchUp s t ((now - startedAt) / 1000) with
          currentTimerType := TimerType.shortBreak
          isTimerRunning := true
          pomodorosCompleted := 1
          cumulativePomodoros :=
            (recoverCatchUp s t ((now - startedAt) / 1000)).cumulativePomodoros + 1 } ∧
    (recoverCatchUp s t ((now - startedAt) / 1000)).elapsedWorkdayTime =
      s.elapsedWorkdayTime + (now - startedAt) / 1000 ∧
    (recoverCatchUp s t ((now - startedAt) / 1000)).cumulativeActiveSec =
      s.cumulativeActiveSec +
        (if t = TimerType.pomodoro then (now - startedAt) / 1000 else 0) ∧
    (recoverCatchUp s t ((now - startedAt) / 1000)).cumulativeBreakSec =
      s.cumulativeBreakSec +
        (if t = TimerType.pomodoro then 0 else (now - startedAt) / 1000) := by
  refine ⟨?_, ?_, recoverCatchUp_elapsed s t _, recoverCatchUp_active s t _,
    recoverCatchUp_break s t _⟩
  · unfold recoverOnMount
    rw [if_pos h]
  · unfold recoverOnMount
    rw [if_pos h]
    rfl

/-- Witness for C4 (amended) at the spec's recovery scenario
(300s ShortBreak recovered 100s late). -/
theorem recovery_bulk_stale_replay_witness :
    (recoverOnMount ⟨1500, 300, 900, 28800, 4, RunMode.workday, 8, ScheduleType.standard⟩
        resetState TimerType.shortBreak 0 300000 400000).2 = true ∧
    (recoverOnMount ⟨1500, 300, 900, 28800, 4, RunMode.workday, 8, ScheduleType.standard⟩
        resetState TimerType.shortBreak 0 300000 400000).1 =
      { recoverCatchUp resetState TimerType.shortBreak ((400000 - 0) / 1000) with
          currentTimerType := TimerType.shortBreak
          isTimerRunning := true
          pomodorosCompleted := 1
          cumulativePomodoros :=
            (recoverCatchUp resetState TimerType.shortBreak
              ((400000 - 0) / 1000)).cumulativePomodoros + 1 } ∧
    (recoverCatchUp resetState TimerType.shortBreak ((400000 - 0) / 1000)).elapsedWorkdayTime =
      resetState.elapsedWorkdayTime + (400000 - 0) / 1000 ∧
    (recoverCatchUp resetState TimerType.shortBreak ((400000 - 0) / 1000)).cumulativeActiveSec =
      resetState.cumulativeActiveSec +
        (if TimerType.shortBreak = TimerType.pomodoro then (400000 - 0) / 1000 else 0) ∧
    (recoverCatchUp resetState TimerType.shortBreak ((400000 - 0) / 1000)).cumulativeBreakSec =
      resetState.cumulativeBreakSec +
        (if TimerType.shortBreak = TimerType.pomodoro then 0 else (400000 - 0) / 1000) :=
  recovery_bulk_stale_replay
    ⟨1500, 300, 900, 28800, 4, RunMode.workday, 8, ScheduleType.standard⟩
    resetState TimerType.shortBreak 0 300000 400000 (by decide)

theorem lookupProfile_setProfileEntry_self (k : String) (v : ProfileTotals)
    (l : List (String × ProfileTotals)) :
    lookupProfile k (setProfileEntry k v l) = some v := by
  induction l with
  | nil => simp [setProfileEntry, lookupProfile]
  | cons hd tl ih =>
      obtain ⟨k', v'⟩ := hd
      by_cases hk : k' = k
      · simp [setProfileEntry, lookupProfile, hk]
      · simp [setProfileEntry, lookupProfile, hk, ih]

theorem setProfileEntry_setProfileEntry (k : String) (v w : ProfileTotals)
    (l : List (String × ProfileTotals)) :
    setProfileEntry k v (setProfileEntry k w l) = setProfileEntry k v l := by
  induction l with
  | nil => simp [setProfileEntry]
  | cons hd tl ih =>
      obtain ⟨k', v'⟩ := hd
      by_cases hk : k' = k
      · simp [setProfileEntry, hk]
      · simp [setProfileEntry, hk, ih]

/-- C7: the diary-snapshot operation is idempotent: a second call with
the accumulators unchanged leaves the day totals, the per-profile
breakdown and the baselines untouched (only the `ts` bookkeeping field
takes the new wall-clock value), since every delta against the stored
baselines is zero. -/
theorem diary_snapshot_idempotent (e : DiaryEntry) (s : AppState) (p : String)
    (t1 t2 : Nat) :
    writeDiarySnapshot (writeDiarySnapshot e s p t1) s p t2 =
      { writeDiarySnapshot e s p t1 with ts := t2 } := by
  simp only [writeDiarySnapshot, lookupProfile_setProfileEntry_self, Option.getD_some,
    Nat.sub_self, Nat.add_zero, setProfileEntry_setProfileEntry]
  refine DiaryEntry.mk.injEq .. |>.mpr ?_
  simp [max_assoc]

/-- C6: at every state reachable by engine events from a fresh run,
`cumulativeActiveSec + cumulativeBreakSec = elapsedTotalSec`: every
accounting step adds its delta to `elapsedWorkdayTime` and to exactly
one of the active/break buckets, and pause, resume, resets, phase
expiries, recovery catch-ups and the midnight rollover all preserve the
equality. -/
theorem accounting_conservation (cfg : Config) (evs : List Event) :
    conserving (runEvents cfg initialRunState evs) := by
  have hstep : ∀ (s : AppState) (e : Event), conserving s → conserving (step cfg s e) := by
    intro s e h
    cases e with
    | start => simp [step, conserving, initialRunState]
    | tick d =>
        show conserving (processDelta cfg s d)
        unfold conserving at h ⊢
        unfold processDelta
        split
        · exact h
        · cases s.currentTimerType <;> simp <;> omega
    | phaseEnd =>
        show conserving (handleTimerEnd cfg s).state
        rw [handleTimerEnd_unfold]
        split
        · simp [conserving, resetState, initialRunState]
        · cases hc : s.currentTimerType <;> simpa [conserving] using h
    | pause => simpa [step, conserving] using h
    | resume => simpa [step, conserving] using h
    | reset => simp [step, conserving, resetState, initialRunState]
    | recover t d =>
        show conserving { recoverCatchUp s t d with
          currentTimerType := t, isTimerRunning := true }
        unfold conserving at h ⊢
        simp only [recoverCatchUp_elapsed, recoverCatchUp_active, recoverCatchUp_break]
        by_cases ht : t = TimerType.pomodoro <;> simp [ht] <;> omega
    | midnight => simp [step, conserving]
  have hrun : ∀ (evs : List Event) (s : AppState), conserving s →
      conserving (runEvents cfg s evs) := by
    intro evs
    induction evs with
    | nil => intro s h; exact h
    | cons e es ih =>
        intro s h
        exact ih (step cfg s e) (hstep s e h)
  exact hrun evs initialRunState (by simp [conserving, initialRunState])

theorem specCounts_partition (cfg : Config) (m : Nat) :
    specShortCount cfg m + specLongCount cfg m = m := by
  induction m with
  | zero => rfl
  | succ m ih =>
      rcases hnb : nextBreakType cfg (m + 1) with h | h | h
      · exact absurd hnb (nextBreakType_ne_pomodoro cfg (m + 1))
      · simp only [specShortCount, specLongCount, hnb]
        simp
        omega
      · simp only [specShortCount, specLongCount, hnb]
        simp
        omega

theorem standardCounts_eq_spec (cfg : Config)
    (h : cfg.scheduleType = ScheduleType.standard) (m : Nat) :
    standardCounts cfg.longEvery m = (specShortCount cfg m, specLongCount cfg m) := by
  induction m with
  | zero => rfl
  | succ m ih =>
      rw [Prod.mk.injEq] at ih
      simp only [standardCounts, specShortCount, specLongCount, nextBreakType, h,
        Prod.mk.injEq]
      rcases Nat.eq_zero_or_pos cfg.longEvery with h0 | hpos
      · have hnlt : ¬ 0 < cfg.longEvery := by omega
        have hmod : ¬ (m + 1) % cfg.longEvery = 0 := by
          rw [h0, Nat.mod_zero]
          exact Nat.succ_ne_zero m
        simp only [hnlt, false_and, if_false, hmod]
        simp
        omega
      · by_cases hc : (m + 1) % cfg.longEvery = 0
        · simp only [hc, if_pos, and_true, hpos, if_true]
          simp
          omega
        · simp only [hc, and_false, if_false]
          simp
          omega

theorem breakCounts_eq_spec (cfg : Config) (m : Nat) :
    breakCounts cfg m = (specShortCount cfg m, specLongCount cfg m) := by
  rcases hs : cfg.scheduleType with h | h | h
  · rw [breakCounts, hs]
    exact standardCounts_eq_spec cfg hs m
  · rw [breakCounts, hs]
    induction m with
    | zero => rfl
    | succ m ih =>
        rw [Prod.mk.injEq] at ih
        simp only [specShortCount, specLongCount, nextBreakType, hs, Prod.mk.injEq]
        simp
        omega
  · rw [breakCounts, hs]
    induction m with
    | zero => rfl
    | succ m ih =>
        rw [Prod.mk.injEq] at ih
        simp only [specShortCount, specLongCount, nextBreakType, hs, Prod.mk.injEq]
        simp
        omega

/-- C5: a Cycles-mode finalization with a positive effective interval
count records `activeSec = workIntervalsCompleted * workDurationSec` and
`breakSec = shortCount * shortBreakDurationSec + longCount * longBreakDurationSec`,
where `(shortCount, longCount)` partition the ordinals
`1 .. workIntervalsCompleted - 1` by the scheduler's break-type decision
rule (`nextBreakType`), while a Workday-mode finalization records the
raw accumulated values unchanged. -/
theorem cycles_finalization_reconciled (cfg : Config) (s : AppState) (inc : Bool)
    (rec : SessionRecord) (h : writeSessionRecord cfg s inc = some rec) :
    rec.pomodoros = s.pomodorosCompleted + (if inc then 1 else 0) ∧
    (cfg.runMode = RunMode.cycles ∧
        0 < s.pomodorosCompleted + (if inc then 1 else 0) →
      rec.active =
        (s.pomodorosCompleted + (if inc then 1 else 0)) * cfg.pomodoroDuration ∧
      rec.brk =
        specShortCount cfg (s.pomodorosCompleted + (if inc then 1 else 0) - 1) *
            cfg.shortBreakDuration +
          specLongCount cfg (s.pomodorosCompleted + (if inc then 1 else 0) - 1) *
            cfg.longBreakDuration ∧
      specShortCount cfg (s.pomodorosCompleted + (if inc then 1 else 0) - 1) +
          specLongCount cfg (s.pomodorosCompleted + (if inc then 1 else 0) - 1) =
        s.pomodorosCompleted + (if inc then 1 else 0) - 1) ∧
    (cfg.runMode = RunMode.workday →
      rec.active = s.cumulativeActiveSec ∧
      rec.brk = s.cumulativeBreakSec ∧
      rec.short = s.cumulativeShortBreakSec ∧
      rec.long = s.cumulativeLongBreakSec) := by
  simp only [writeSessionRecord] at h
  by_cases h0 : s.cumulativeActiveSec + s.cumulativeBreakSec = 0
  · rw [if_pos h0] at h
    exact absurd h (by simp)
  · rw [if_neg h0] at h
    injection h with h'
    subst h'
    refine ⟨rfl, ?_, ?_⟩
    · rintro ⟨hm, hp⟩
      refine ⟨?_, ?_, specCounts_partition cfg _⟩
      · simp [hm, hp]
      · simp [hm, hp, breakCounts_eq_spec]
    · intro hw
      have hnc : ¬ cfg.runMode = RunMode.cycles := by
        rw [hw]; exact fun hx => RunMode.noConfusion hx
      simp [hnc]

/-- Witness for C5 at the spec's first scenario: 5 cycles, Standard
policy, `longEvery = 4`; the reconciled record has
`activeSec = 7500` and `breakSec = 1800`. -/
theorem cycles_finalization_reconciled_witness :
    (⟨7500, 1800, 1800, 0, 5, RunMode.cycles⟩ : SessionRecord).active = 7500 ∧
    (⟨7500, 1800, 1800, 0, 5, RunMode.cycles⟩ : SessionRecord).brk = 1800 := by
  have h := cycles_finalization_reconciled
    ⟨1500, 300, 900, 28800, 4, RunMode.cycles, 5, ScheduleType.standard⟩
    { initialRunState with
        cumulativeActiveSec := 7400, cumulativeBreakSec := 1795, pomodorosCompleted := 4 }
    true ⟨7500, 1800, 1800, 0, 5, RunMode.cycles⟩ (by decide)
  obtain ⟨-, hcyc, -⟩ := h
  obtain ⟨ha, hb, -⟩ := hcyc ⟨rfl, by decide⟩
  exact ⟨ha.trans (by decide), hb.trans (by decide)⟩

theorem hasResetEv_cons (e : TEvent) (es : List TEvent) :
    hasResetEv (e :: es) = false ↔
      (∀ d, e ≠ TEvent.resetEv d) ∧ hasResetEv es = false := by
  cases e <;> simp [hasResetEv]

theorem hasRunEv_cons (e : TEvent) (es : List TEvent) :
    hasRunEv (e :: es) = false ↔ e ≠ TEvent.runEv ∧ hasRunEv es = false := by
  cases e <;> simp [hasRunEv]

theorem timerStep_fired (s : TimerState) (e : TEvent)
    (hf : (timerStep s e).2 = true) :
    (timerStep s e).1.ended = true ∧ s.ended = false := by
  cases e with
  | raf now =>
      simp only [timerStep, rafTick] at hf ⊢
      split_ifs at hf ⊢ with h1 h2 <;> simp_all
  | fallback now =>
      simp only [timerStep, fallbackFire] at hf ⊢
      split_ifs at hf ⊢ with h1 h2 <;> simp_all
  | visible now =>
      simp only [timerStep, visibilitySync] at hf ⊢
      split_ifs at hf ⊢ with h1 h2 <;> simp_all
  | pauseEv => simp [timerStep] at hf
  | runEv => simp [timerStep] at hf
  | resetEv d => simp [timerStep] at hf

theorem timerStep_not_fired_ended (s : TimerState) (e : TEvent)
    (hne : ∀ d, e ≠ TEvent.resetEv d)
    (hf : (timerStep s e).2 = false) :
    (timerStep s e).1.ended = s.ended := by
  cases e with
  | raf now =>
      simp only [timerStep, rafTick] at hf ⊢
      split_ifs at hf ⊢ with h1 h2 <;> simp_all
  | fallback now =>
      simp only [timerStep, fallbackFire] at hf ⊢
      split_ifs at hf ⊢ with h1 h2 <;> simp_all
  | visible now =>
      simp only [timerStep, visibilitySync] at hf ⊢
      split_ifs at hf ⊢ with h1 h2 <;> simp_all
  | pauseEv => simp [timerStep, pauseTimer, stopLoop]
  | runEv => simp [timerStep, startTimerLoop]
  | resetEv d => exact absurd rfl (hne d)

theorem fireCount_le_one (s : TimerState) (evs : List TEvent)
    (h : hasResetEv evs = false) :
    fireCount s evs ≤ if s.ended = true then 0 else 1 := by
  induction evs generalizing s with
  | nil => simp [fireCount]
  | cons e es ih =>
      obtain ⟨hne, hes⟩ := (hasResetEv_cons e es).mp h
      simp only [fireCount]
      cases hf : (timerStep s e).2
      · have hend := timerStep_not_fired_ended s e hne hf
        have := ih (timerStep s e).1 hes
        rw [hend] at this
        simpa using this
      · obtain ⟨h1, h0⟩ := timerStep_fired s e hf
        have htail := ih (timerStep s e).1 hes
        rw [h1] at htail
        have htail0 : fireCount (timerStep s e).1 es = 0 :=
          Nat.le_zero.mp (by simpa using htail)
        simp [h0, htail0]

theorem fireCount_disarmed (evs : List TEvent) (h : hasRunEv evs = false) :
    ∀ s : TimerState, s.rafScheduled = false → s.timeoutScheduled = false →
      s.running = false → fireCount s evs = 0 := by
  induction evs with
  | nil => intro s _ _ _; rfl
  | cons e es ih =>
      obtain ⟨hne, hes⟩ := (hasRunEv_cons e es).mp h
      intro s hr ht hg
      cases e with
      | raf now =>
          simp only [fireCount, timerStep, rafTick, hr, if_pos]
          simpa using ih hes s hr ht hg
      | fallback now =>
          simp only [fireCount, timerStep, fallbackFire, ht, if_pos]
          simpa using ih hes s hr ht hg
      | visible now =>
          simp only [fireCount, timerStep, visibilitySync, hg, if_pos]
          simpa using ih hes s hr ht hg
      | pauseEv =>
          simp only [fireCount, timerStep]
          simpa using ih hes (pauseTimer s) rfl rfl rfl
      | runEv => exact absurd rfl hne
      | resetEv d =>
          simp only [fireCount, timerStep]
          simpa using ih hes (resetSegment s d) hr ht hg

/-- C9: for each phase segment, `onTimerEnd` fires exactly once even
when the animation-frame poll, the fallback timeout and the
visibility/focus re-sync all observe zero remaining in overlapping
fashion: along any event sequence without a segment reset at most one
fire occurs (the `endedRef` guard makes every later observation a
no-op); each of the three detection paths does fire when the deadline
has passed and the guard is clear; and pausing disarms the loop so that
no in-flight expiry can fire afterwards. -/
theorem timer_end_fires_once (s : TimerState) (evs evs2 : List TEvent) (now T : Nat)
    (h1 : hasResetEv evs = false) (h2 : hasRunEv evs2 = false)
    (h3 : s.rafScheduled = true) (h4 : s.ended = false)
    (h5 : s.targetTs = some T) (h6 : T ≤ now) :
    fireCount s evs ≤ 1 ∧
    (rafTick s now).2 = true ∧
    (s.timeoutScheduled = true → (fallbackFire s now).2 = true) ∧
    (s.running = true → (visibilitySync s now).2 = true) ∧
    fireCount (pauseTimer s) evs2 = 0 := by
  have hz : T - now = 0 := Nat.sub_eq_zero_of_le h6
  refine ⟨?_, ?_, ?_, ?_, ?_⟩
  · have := fireCount_le_one s evs h1
    rw [h4] at this
    simpa using this
  · simp [rafTick, h3, computeMsLeft, h5, hz, h4]
  · intro h7
    simp [fallbackFire, h7, computeMsLeft, h5, hz, h4]
  · intro h8
    simp [visibilitySync, h8, computeMsLeft, h5, hz, h4]
  · exact fireCount_disarmed evs2 h2 (pauseTimer s) rfl rfl rfl

/-- Witness for C9: remaining already zero (`targetTs = 100`, polled at
100-102); the three overlapping observers produce exactly one fire, and
after a pause the same observations produce none. -/
theorem timer_end_fires_once_witness :
    fireCount ⟨0, some 100, false, true, true, true⟩
        [TEvent.raf 100, TEvent.fallback 101, TEvent.visible 102] ≤ 1 ∧
    (rafTick ⟨0, some 100, false, true, true, true⟩ 100).2 = true ∧
    ((⟨0, some 100, false, true, true, true⟩ : TimerState).timeoutScheduled = true →
      (fallbackFire ⟨0, some 100, false, true, true, true⟩ 100).2 = true) ∧
    ((⟨0, some 100, false, true, true, true⟩ : TimerState).running = true →
      (visibilitySync ⟨0, some 100, false, true, true, true⟩ 100).2 = true) ∧
    fireCount (pauseTimer ⟨0, some 100, false, true, true, true⟩)
        [TEvent.raf 103, TEvent.fallback 104, TEvent.visible 105] = 0 :=
  timer_end_fires_once ⟨0, some 100, false, true, true, true⟩
    [TEvent.raf 100, TEvent.fallback 101, TEvent.visible 102]
    [TEvent.raf 103, TEvent.fallback 104, TEvent.visible 105]
    100 100 (by decide) (by decide) rfl rfl rfl (by decide)

theorem writeSessionRecord_pomodoros (cfg : Config) (s : AppState) (inc : Bool)
    (hne : ¬ s.cumulativeActiveSec + s.cumulativeBreakSec = 0) :
    ∃ rec, writeSessionRecord cfg s inc = some rec ∧
      rec.pomodoros = s.pomodorosCompleted + (if inc then 1 else 0) := by
  simp only [writeSessionRecord]
  rw [if_neg hne]
  exact ⟨_, rfl, rfl⟩

theorem runToCompletion_stop (cfg : Config) (fuel : Nat) (s : AppState)
    (h : (handleTimerEnd cfg
      (processDelta cfg s (phaseDuration cfg s.currentTimerType))).finished = true) :
    runToCompletion cfg (fuel + 1) s =
      ([s.currentTimerType],
        some (handleTimerEnd cfg
          (processDelta cfg s (phaseDuration cfg s.currentTimerType)))) := by
  simp only [runToCompletion]
  rw [h]
  simp

theorem runToCompletion_continue (cfg : Config) (fuel : Nat) (s : AppState)
    (h : (handleTimerEnd cfg
      (processDelta cfg s (phaseDuration cfg s.currentTimerType))).finished = false) :
    runToCompletion cfg (fuel + 1) s =
      (s.currentTimerType ::
        (runToCompletion cfg fuel
          ((handleTimerEnd cfg
            (processDelta cfg s (phaseDuration cfg s.currentTimerType))).state)).1,
        (runToCompletion cfg fuel
          ((handleTimerEnd cfg
            (processDelta cfg s (phaseDuration cfg s.currentTimerType))).state)).2) := by
  simp only [runToCompletion]
  rw [h]
  simp

theorem cyclesRun_aux (cfg : Config) (hm : cfg.runMode = RunMode.cycles)
    (hd : 0 < cfg.pomodoroDuration) :
    ∀ (d : Nat) (s : AppState) (fuel : Nat),
      s.currentTimerType = TimerType.pomodoro →
      s.isTimerRunning = true →
      s.pomodorosCompleted + d + 1 = cfg.targetCycles →
      2 * d + 1 ≤ fuel →
      ∃ (phases : List TimerType) (r : EndOutcome) (rec : SessionRecord),
        runToCompletion cfg fuel s = (phases, some r) ∧
        r.finished = true ∧
        r.record = some rec ∧
        rec.pomodoros = cfg.targetCycles ∧
        phases.countP (fun p => p == TimerType.pomodoro) = d + 1 ∧
        phases.countP (fun p => !(p == TimerType.pomodoro)) = d ∧
        phases.getLast? = some TimerType.pomodoro := by
  intro d
  induction d with
  | zero =>
      intro s fuel htype hrun hcnt hfuel
      obtain ⟨f1, rfl⟩ : ∃ f1, fuel = f1 + 1 := ⟨fuel - 1, by omega⟩
      have hE_type : (processDelta cfg s
          (phaseDuration cfg s.currentTimerType)).currentTimerType =
          TimerType.pomodoro := by
        rw [processDelta_currentTimerType, htype]
      have hE_poms : (processDelta cfg s
          (phaseDuration cfg s.currentTimerType)).pomodorosCompleted =
          s.pomodorosCompleted := processDelta_pomodorosCompleted cfg s _
      have hstop : stopCondition cfg
          (processDelta cfg s (phaseDuration cfg s.currentTimerType)) :=
        Or.inr ⟨hm, hE_type, by rw [hE_poms]; omega⟩
      have hE_active : (processDelta cfg s
          (phaseDuration cfg s.currentTimerType)).cumulativeActiveSec =
          s.cumulativeActiveSec + phaseDuration cfg s.currentTimerType := by
        rw [processDelta_active cfg s _ hrun]
        simp [htype]
      have hne : ¬ ((processDelta cfg s
          (phaseDuration cfg s.currentTimerType)).cumulativeActiveSec +
          (processDelta cfg s
            (phaseDuration cfg s.currentTimerType)).cumulativeBreakSec = 0) := by
        intro h0
        rw [hE_active, htype] at h0
        simp only [phaseDuration] at h0
        omega
      obtain ⟨rec, hrec, hrecp⟩ := writeSessionRecord_pomodoros cfg _ true hne
      have hfin : (handleTimerEnd cfg
          (processDelta cfg s (phaseDuration cfg s.currentTimerType))).finished = true := by
        rw [handleTimerEnd_stop cfg _ hstop]
      have hrecord : (handleTimerEnd cfg
          (processDelta cfg s (phaseDuration cfg s.currentTimerType))).record =
          writeSessionRecord cfg
            (processDelta cfg s (phaseDuration cfg s.currentTimerType)) true := by
        rw [handleTimerEnd_stop cfg _ hstop]
        simp [hE_type]
      refine ⟨[s.currentTimerType], _, rec,
        runToCompletion_stop cfg f1 s hfin, hfin, ?_, ?_, ?_, ?_, ?_⟩
      · rw [hrecord]
        exact hrec
      · have hp1 : rec.pomodoros = s.pomodorosCompleted + 1 := by
          rw [hrecp, hE_poms]
          simp
        omega
      · simp [htype]
      · simp [htype]
      · simp [htype]
  | succ d ih =>
      intro s fuel htype hrun hcnt hfuel
      obtain ⟨f2, rfl⟩ : ∃ f2, fuel = f2 + 1 + 1 := ⟨fuel - 2, by omega⟩
      have hE_type : (processDelta cfg s
          (phaseDuration cfg s.currentTimerType)).currentTimerType =
          TimerType.pomodoro := by
        rw [processDelta_currentTimerType, htype]
      have hE_poms : (processDelta cfg s
          (phaseDuration cfg s.currentTimerType)).pomodorosCompleted =
          s.pomodorosCompleted := processDelta_pomodorosCompleted cfg s _
      have hE_run : (processDelta cfg s
          (phaseDuration cfg s.currentTimerType)).isTimerRunning = true :=
        processDelta_running_cycles cfg s _ hm hrun
      have hnostop : ¬ stopCondition cfg
          (processDelta cfg s (phaseDuration cfg s.currentTimerType)) := by
        rintro (⟨hw, -⟩ | ⟨-, -, hle⟩)
        · rw [hm] at hw; exact RunMode.noConfusion hw
        · rw [hE_poms] at hle; omega
      have hcont := handleTimerEnd_work_continue cfg _ hE_type hnostop
      have hfin1 : (handleTimerEnd cfg
          (processDelta cfg s (phaseDuration cfg s.currentTimerType))).finished = false := by
        rw [hcont]
      have hS1_type : (handleTimerEnd cfg
          (processDelta cfg s (phaseDuration cfg s.currentTimerType))).state.currentTimerType =
          nextBreakType cfg ((processDelta cfg s
            (phaseDuration cfg s.currentTimerType)).pomodorosCompleted + 1) := by
        rw [hcont]
      have hS1_run : (handleTimerEnd cfg
          (processDelta cfg s (phaseDuration cfg s.currentTimerType))).state.isTimerRunning =
          true := by
        rw [hcont]
      have hS1_poms : (handleTimerEnd cfg
          (processDelta cfg s (phaseDuration cfg s.currentTimerType))).state.pomodorosCompleted =
          (processDelta cfg s
            (phaseDuration cfg s.currentTimerType)).pomodorosCompleted + 1 := by
        rw [hcont]
      -- the break segment
      set S1 := (handleTimerEnd cfg
        (processDelta cfg s (phaseDuration cfg s.currentTimerType))).state with hS1def
      have hE2_type : (processDelta cfg S1
          (phaseDuration cfg S1.currentTimerType)).currentTimerType =
          S1.currentTimerType := processDelta_currentTimerType cfg S1 _
      have hE2_ne : (processDelta cfg S1
          (phaseDuration cfg S1.currentTimerType)).currentTimerType ≠
          TimerType.pomodoro := by
        rw [hE2_type, hS1_type]
        exact nextBreakType_ne_pomodoro cfg _
      have hE2_poms : (processDelta cfg S1
          (phaseDuration cfg S1.currentTimerType)).pomodorosCompleted =
          S1.pomodorosCompleted := processDelta_pomodorosCompleted cfg S1 _
      have hnostop2 : ¬ stopCondition cfg
          (processDelta cfg S1 (phaseDuration cfg S1.currentTimerType)) := by
        rintro (⟨hw, -⟩ | ⟨-, hty, -⟩)
        · rw [hm] at hw; exact RunMode.noConfusion hw
        · exact hE2_ne hty
      have hcont2 := handleTimerEnd_break_continue cfg _ hE2_ne hnostop2
      have hfin2 : (handleTimerEnd cfg
          (processDelta cfg S1 (phaseDuration cfg S1.currentTimerType))).finished = false := by
        rw [hcont2]
      have hS2_type : (handleTimerEnd cfg
          (processDelta cfg S1 (phaseDuration cfg S1.currentTimerType))).state.currentTimerType =
          TimerType.pomodoro := by
        rw [hcont2]
      have hS2_run : (handleTimerEnd cfg
          (processDelta cfg S1 (phaseDuration cfg S1.currentTimerType))).state.isTimerRunning =
          true := by
        rw [hcont2]
      have hS2_poms : (handleTimerEnd cfg
          (processDelta cfg S1 (phaseDuration cfg S1.currentTimerType))).state.pomodorosCompleted =
          s.pomodorosCompleted + 1 := by
        rw [hcont2]
        show (processDelta cfg S1 (phaseDuration cfg S1.currentTimerType)).pomodorosCompleted =
          s.pomodorosCompleted + 1
        rw [hE2_poms, hS1_poms, hE_poms]
      obtain ⟨phases, r, rec, hrun2, hfin, hrec, hrecp, hcw, hcb, hlast⟩ :=
        ih ((handleTimerEnd cfg
            (processDelta cfg S1 (phaseDuration cfg S1.currentTimerType))).state) f2
          hS2_type hS2_run (by rw [hS2_poms]; omega) (by omega)
      have hchain : runToCompletion cfg (f2 + 1 + 1) s =
          (s.currentTimerType :: S1.currentTimerType :: phases, some r) := by
        rw [runToCompletion_continue cfg (f2 + 1) s hfin1, ← hS1def,
          runToCompletion_continue cfg f2 S1 hfin2, hrun2]
      have hsp : (s.currentTimerType == TimerType.pomodoro) = true := by
        simp [htype]
      have hbp : (S1.currentTimerType == TimerType.pomodoro) = false := by
        rw [hS1_type]
        exact beq_eq_false_iff_ne.mpr (nextBreakType_ne_pomodoro cfg _)
      refine ⟨s.currentTimerType :: S1.currentTimerType :: phases, r, rec,
        hchain, hfin, hrec, hrecp, ?_, ?_, ?_⟩
      · simp only [List.countP_cons, hsp, hbp]
        simp only [hcw]
        simp
      · simp only [List.countP_cons, hsp, hbp]
        simp only [hcb]
        simp
      · rcases phases with - | ⟨p, ps⟩
        · exact absurd hlast (by simp)
        · rw [List.getLast?_cons_cons, List.getLast?_cons_cons]
          exact hlast

/-- C2: in Cycles mode `handleTimerEnd` finishes the run exactly when a
Work phase expires with `pomodorosCompleted + 1 >= targetCycles`, and a
fresh run driven to completion yields `targetCycles` Work segments and
exactly `targetCycles - 1` break segments, with the final segment a Work
interval (never followed by a break); the recorded
`workIntervalsCompleted` equals `targetCycles`. -/
theorem cycles_run_final_no_break (cfg : Config) (fuel : Nat)
    (hm : cfg.runMode = RunMode.cycles) (ht : 1 ≤ cfg.targetCycles)
    (hd : 0 < cfg.pomodoroDuration) (hf : 2 * cfg.targetCycles ≤ fuel) :
    (∀ s' : AppState, (handleTimerEnd cfg s').finished =
      (decide (s'.currentTimerType = TimerType.pomodoro) &&
        decide (cfg.targetCycles ≤ s'.pomodorosCompleted + 1))) ∧
    ∃ (phases : List TimerType) (r : EndOutcome) (rec : SessionRecord),
      runToCompletion cfg fuel initialRunState = (phases, some r) ∧
      r.finished = true ∧
      r.record = some rec ∧
      rec.pomodoros = cfg.targetCycles ∧
      phases.countP (fun p => p == TimerType.pomodoro) = cfg.targetCycles ∧
      phases.countP (fun p => !(p == TimerType.pomodoro)) = cfg.targetCycles - 1 ∧
      phases.getLast? = some TimerType.pomodoro := by
  constructor
  · intro s'
    rw [handleTimerEnd_unfold]
    by_cases hsc : stopCondition cfg s'
    · rw [if_pos hsc]
      rcases hsc with ⟨hw, -⟩ | ⟨-, hty, hle⟩
      · rw [hm] at hw; exact RunMode.noConfusion hw
      · simp [hty, hle]
    · rw [if_neg hsc]
      have hno : ¬ (s'.currentTimerType = TimerType.pomodoro ∧
          cfg.targetCycles ≤ s'.pomodorosCompleted + 1) := by
        rintro ⟨a, b⟩
        exact hsc (Or.inr ⟨hm, a, b⟩)
      cases hc : s'.currentTimerType
      · rw [hc] at hno
        have hnle : ¬ cfg.targetCycles ≤ s'.pomodorosCompleted + 1 :=
          fun hb => hno ⟨rfl, hb⟩
        simp [hnle]
      · simp [hc]
      · simp [hc]
  · obtain ⟨phases, r, rec, h1, h2, h3, h4, h5, h6, h7⟩ :=
      cyclesRun_aux cfg hm hd (cfg.targetCycles - 1) initialRunState fuel rfl rfl
        (by show 0 + (cfg.targetCycles - 1) + 1 = cfg.targetCycles; omega) (by omega)
    refine ⟨phases, r, rec, h1, h2, h3, h4, ?_, ?_, h7⟩
    · omega
    · omega

/-- Witness for C2 at the spec's first scenario: 5 target cycles,
Standard policy with `longEvery = 4`. -/
theorem cycles_run_final_no_break_witness :
    ((handleTimerEnd ⟨1500, 300, 900, 28800, 4, RunMode.cycles, 5, ScheduleType.standard⟩
        initialRunState).finished =
      (decide (initialRunState.currentTimerType = TimerType.pomodoro) &&
        decide ((5 : Nat) ≤ initialRunState.pomodorosCompleted + 1))) ∧
    ∃ (phases : List TimerType) (r : EndOutcome) (rec : SessionRecord),
      runToCompletion ⟨1500, 300, 900, 28800, 4, RunMode.cycles, 5, ScheduleType.standard⟩
          10 initialRunState = (phases, some r) ∧
      r.finished = true ∧
      r.record = some rec ∧
      rec.pomodoros = 5 ∧
      phases.countP (fun p => p == TimerType.pomodoro) = 5 ∧
      phases.countP (fun p => !(p == TimerType.pomodoro)) = 5 - 1 ∧
      phases.getLast? = some TimerType.pomodoro := by
  have h := cycles_run_final_no_break
    ⟨1500, 300, 900, 28800, 4, RunMode.cycles, 5, ScheduleType.standard⟩
    10 rfl (by decide) (by decide) (by decide)
  exact ⟨h.1 initialRunState, h.2⟩

end Pomodoro
